import Mathlib

/-!
Shallow embedding of the geolocation token game (src/src/main.ts, second and
authoritative snapshot, lines 234-641).  Geographic coordinates and RNG draws
are modelled as rationals, cell coordinates and token values as integers.
The deterministic seeded RNG (imported from `_luck.ts`, keyed by strings such
as "i,j,spawn") is kept abstract as a function from a structured key to a
rational; distinct `(i, j, tag)` triples produce distinct key strings, so a
function on the structured key is faithful.
-/

namespace D3rich

/-- Geographic point, as in `leaflet.latLng(lat, lng)`. -/
structure LatLng where
  lat : ℚ
  lng : ℚ
deriving DecidableEq, Repr

/-- Geographic rectangle, as in `leaflet.latLngBounds`. -/
structure GeoBounds where
  south : ℚ
  west : ℚ
  north : ℚ
  east : ℚ
deriving DecidableEq, Repr

/-- `const WORLD_ORIGIN = leaflet.latLng(0, 0)` (main.ts:245). -/
def WORLD_ORIGIN : LatLng := ⟨0, 0⟩

/-- `const TILE_DEGREES = 1e-4` (main.ts:247). -/
def TILE_DEGREES : ℚ := 1 / 10000

/-- `const CELL_SPAWN_PROBABILITY = 0.35` (main.ts:248). -/
def CELL_SPAWN_PROBABILITY : ℚ := 35 / 100

/-- `const INTERACTION_RADIUS = 2` (main.ts:249). -/
def INTERACTION_RADIUS : ℚ := 2

/-- `type GameState = { heldToken: number | null; playerLatLng: leaflet.LatLng }`
(main.ts:252-255); `null` is `none`. -/
structure GameState where
  heldToken : Option ℤ
  playerLatLng : LatLng
deriving DecidableEq, Repr

/-- The module-level initial `gameState` (main.ts:257-260). -/
def initialGameState : GameState := ⟨none, WORLD_ORIGIN⟩

/-- `type CellState = { tokenValue: number }` (main.ts:263-265). -/
structure CellState where
  tokenValue : ℤ
deriving DecidableEq, Repr

/-- A grid cell coordinate `(i, j)`.  `cellKey` (main.ts:323-325) renders it as
the string "i,j", injectively, so the pair itself serves as the map key. -/
abbrev Coord := ℤ × ℤ

/-- Purpose tag appended to the coordinate when building an RNG key:
`[i, j, "spawn"]` or `[i, j, "cellExists"]` (main.ts:344, 556). -/
inductive LuckTag where
  | spawn
  | cellExists
deriving DecidableEq, Repr

/-- Structured RNG key standing for the string `[i, j, tag].toString()`. -/
structure LuckKey where
  i : ℤ
  j : ℤ
  tag : LuckTag
deriving DecidableEq, Repr

/-- The deterministic seeded RNG `luck`, abstract: a pure function from key to
a value in `[0, 1)`.  Claims only compare its output with thresholds, so no
range assumption is baked in. -/
abbrev Rng := LuckKey → ℚ

/-- `const savedCells = new Map<string, CellState>()` (main.ts:267): the
Override Store, modelled as an association list in insertion order (JS `Map`
preserves insertion order; `set` replaces in place). -/
abbrev OverrideStore := List (Coord × CellState)

/-- `Map.get` / `Map.has`: first (and only) binding for a key. -/
def OverrideStore.lookup : OverrideStore → Coord → Option CellState
  | [], _ => none
  | (k, v) :: rest, c => if k = c then some v else OverrideStore.lookup rest c

/-- `Map.set`: replace the binding in place when the key is present, append
otherwise. -/
def OverrideStore.set : OverrideStore → Coord → CellState → OverrideStore
  | [], c, v => [(c, v)]
  | (k, w) :: rest, c, v =>
      if k = c then (k, v) :: rest else (k, w) :: OverrideStore.set rest c v

/-- `cellBounds(i, j)` (main.ts:270-278): the geographic rectangle of cell
`(i, j)` relative to `WORLD_ORIGIN`. -/
def cellBounds (i j : ℤ) : GeoBounds :=
  { south := WORLD_ORIGIN.lat + i * TILE_DEGREES
    west := WORLD_ORIGIN.lng + j * TILE_DEGREES
    north := WORLD_ORIGIN.lat + (i + 1) * TILE_DEGREES
    east := WORLD_ORIGIN.lng + (j + 1) * TILE_DEGREES }

/-- `latLngToCell(lat, lng)` (main.ts:304-308): floor division by
`TILE_DEGREES` relative to `WORLD_ORIGIN`. -/
def latLngToCell (lat lng : ℚ) : Coord :=
  (⌊(lat - WORLD_ORIGIN.lat) / TILE_DEGREES⌋, ⌊(lng - WORLD_ORIGIN.lng) / TILE_DEGREES⌋)

/-- `isNearPlayer(state, i, j)` (main.ts:311-318).  The source compares
`Math.hypot(i - pc.i, j - pc.j) <= INTERACTION_RADIUS`; since both sides are
nonnegative this is equivalent to comparing squares, which keeps the
arithmetic rational. -/
def isNearPlayer (state : GameState) (i j : ℤ) : Bool :=
  let pc := latLngToCell state.playerLatLng.lat state.playerLatLng.lng
  decide ((((i - pc.1) : ℚ) ^ 2 + ((j - pc.2) : ℚ) ^ 2) ≤ INTERACTION_RADIUS ^ 2)

/-- `getCellState(i, j)` (main.ts:335-346): the stored override verbatim when
present, otherwise a fresh procedural roll `luck([i,j,"spawn"]) < 0.5 ? 1 : 0`;
nothing is written back (the function has no `set` call). -/
def getCellState (rng : Rng) (ov : OverrideStore) (i j : ℤ) : CellState :=
  match ov.lookup (i, j) with
  | some s => s
  | none => ⟨if rng ⟨i, j, LuckTag.spawn⟩ < 1 / 2 then 1 else 0⟩

/-- Outcome reported by the interact click handler through the status panel
or alert (main.ts:505-532). -/
inductive Outcome where
  | tooFar
  | pickedUp (v : ℤ)
  | crafted (v : ℤ) (win : Bool)
  | nothing
deriving DecidableEq, Repr

/-- Result of one interact click: the player state, the Override Store, the
popup closure's `tokenValue` variable after the click, and the outcome. -/
structure InteractResult where
  state : GameState
  overrides : OverrideStore
  tokenValue : ℤ
  outcome : Outcome
deriving DecidableEq, Repr

/-- The `#interact` click handler inside `spawnCell` (main.ts:505-532).
`tokenValue` is the popup closure's captured variable, initialised from
`getCellState` at spawn time (main.ts:489).  Note the craft branch
(main.ts:518-528) updates `heldToken` and zeroes the closure variable but,
unlike the pickup branch (main.ts:514), never writes to `savedCells`. -/
def interact (state : GameState) (ov : OverrideStore) (i j tokenValue : ℤ) :
    InteractResult :=
  if isNearPlayer state i j = false then
    ⟨state, ov, tokenValue, Outcome.tooFar⟩
  else
    match state.heldToken with
    | none =>
        if 0 < tokenValue then
          ⟨⟨some tokenValue, state.playerLatLng⟩, ov.set (i, j) ⟨0⟩, 0,
            Outcome.pickedUp tokenValue⟩
        else
          ⟨state, ov, tokenValue, Outcome.nothing⟩
    | some h =>
        if 0 < tokenValue then
          ⟨⟨some (h + tokenValue), state.playerLatLng⟩, ov, 0,
            Outcome.crafted (h + tokenValue) (decide (10 ≤ h + tokenValue))⟩
        else
          ⟨state, ov, tokenValue, Outcome.nothing⟩

/-- Integers from `lo` to `hi` inclusive, in ascending order (empty when
`hi < lo`), mirroring `for (let i = lo; i <= hi; i++)`. -/
def intRange (lo hi : ℤ) : List ℤ :=
  (List.range (hi + 1 - lo).toNat).map (fun (n : ℕ) => lo + (n : ℤ))

/-- The inclusive rectangle of cells scanned by `updateVisibleCells`
(main.ts:545-550): rows from `bottomRight.i` up to `topLeft.i`, columns from
`topLeft.j` up to `bottomRight.j`. -/
def cellRange (bounds : GeoBounds) : List Coord :=
  let tl := latLngToCell bounds.north bounds.west
  let br := latLngToCell bounds.south bounds.east
  (intRange br.1 tl.1).flatMap (fun i => (intRange tl.2 br.2).map (fun j => (i, j)))

/-- `LatLngBounds.intersects` in leaflet: the rectangles share at least one
point (inclusive comparisons on both axes). -/
def boundsIntersect (a b : GeoBounds) : Bool :=
  decide (a.south ≤ b.north) && decide (b.south ≤ a.north) &&
    decide (a.west ≤ b.east) && decide (b.west ≤ a.east)

/-- Result of one `updateVisibleCells` run: cells newly spawned, cells
despawned, and the active set afterwards. -/
structure ReconcileResult where
  toSpawn : List Coord
  toDespawn : List Coord
  active : List Coord
deriving DecidableEq, Repr

/-- `updateVisibleCells` (main.ts:542-574).  First pass: every cell in the
inclusive viewport range not already active spawns when
`luck([i,j,"cellExists"]) < CELL_SPAWN_PROBABILITY` or `savedCells.has(key)`.
Second pass: every active cell (including just-spawned ones) whose rectangle
`cellBounds(i,j)` no longer intersects the viewport is removed. -/
def updateVisibleCells (rng : Rng) (ov : OverrideStore) (bounds : GeoBounds)
    (active : List Coord) : ReconcileResult :=
  let spawned := (cellRange bounds).filter (fun c =>
    decide (c ∉ active) &&
      (decide (rng ⟨c.1, c.2, LuckTag.cellExists⟩ < CELL_SPAWN_PROBABILITY) ||
        (ov.lookup c).isSome))
  let afterSpawn := active ++ spawned
  { toSpawn := spawned
    toDespawn := afterSpawn.filter (fun c => !boundsIntersect (cellBounds c.1 c.2) bounds)
    active := afterSpawn.filter (fun c => boundsIntersect (cellBounds c.1 c.2) bounds) }

/-- The saved payload as `loadGame` (main.ts:289-301) reads it after
`JSON.parse`.  `none` in `playerLatLng` or `savedCells` models the field being
absent from the payload; `heldToken` is the stored value (`none` for a stored
`null`), its field taken as present. -/
structure RawPayload where
  playerLatLng : Option LatLng
  heldToken : Option ℤ
  savedCells : Option (List (Coord × CellState))
deriving DecidableEq, Repr

/-- Result of `loadGame`: the game state and Override Store after the call,
and whether a JS exception escaped (leaving the mutations made so far in
place). -/
structure LoadResult where
  game : GameState
  overrides : OverrideStore
  errored : Bool
deriving DecidableEq, Repr

/-- `loadGame()` (main.ts:289-301).  No payload: return early, defaults stay.
Otherwise the fields are applied unconditionally in source order:
`leaflet.latLng(undefined)` throws before any mutation when `playerLatLng` is
absent; when `savedCells` is absent, `playerLatLng` and `heldToken` are
already applied and `savedCells.clear()` has run before the `for..of` over
`undefined` throws. -/
def loadGame (raw : Option RawPayload) (g : GameState) (ov : OverrideStore) :
    LoadResult :=
  match raw with
  | none => ⟨g, ov, false⟩
  | some d =>
      match d.playerLatLng with
      | none => ⟨g, ov, true⟩
      | some p =>
          let g1 : GameState := ⟨d.heldToken, p⟩
          match d.savedCells with
          | none => ⟨g1, [], true⟩
          | some entries =>
              ⟨g1, entries.foldl (fun acc e => acc.set e.1 e.2) [], false⟩

/-- One discrete external event after startup, as dispatched by the
single-threaded event loop: a movement delta (main.ts:580-588), an interact
click on a popup whose closure holds `tokenValue`, or a viewport
reconciliation (moveend / initial render). -/
inductive Op where
  | move (dLat dLng : ℚ)
  | click (i j tokenValue : ℤ)
  | reconcile (bounds : GeoBounds)

/-- Whole-session state: player state, Override Store, active cell set. -/
structure Session where
  game : GameState
  overrides : OverrideStore
  active : List Coord
deriving DecidableEq, Repr

/-- The session at startup with no saved game (main.ts:257-260, 267). -/
def initialSession : Session := ⟨initialGameState, [], []⟩

/-- Effect of one event on the session state. -/
def stepOp (rng : Rng) (s : Session) : Op → Session
  | Op.move dLat dLng =>
      { s with game := ⟨s.game.heldToken,
          ⟨s.game.playerLatLng.lat + dLat, s.game.playerLatLng.lng + dLng⟩⟩ }
  | Op.click i j tokenValue =>
      let r := interact s.game s.overrides i j tokenValue
      { game := r.state, overrides := r.overrides, active := s.active }
  | Op.reconcile bounds =>
      { s with active := (updateVisibleCells rng s.overrides bounds s.active).active }

/-- Run a list of events in order. -/
def runOps (rng : Rng) (ops : List Op) (s : Session) : Session :=
  ops.foldl (stepOp rng) s

/-! Helper lemmas shared by several claims. -/

theorem OverrideStore.lookup_set (ov : OverrideStore) (c c' : Coord) (v : CellState) :
    (ov.set c v).lookup c' = if c' = c then some v else ov.lookup c' := by
  induction ov with
  | nil =>
      by_cases h : c' = c
      · subst h; simp [OverrideStore.set, OverrideStore.lookup]
      · have h2 : ¬ c = c' := fun hh => h hh.symm
        simp [OverrideStore.set, OverrideStore.lookup, h, h2]
  | cons kv rest ih =>
      obtain ⟨k, w⟩ := kv
      by_cases hk : k = c
      · subst hk
        by_cases h : c' = k
        · subst h
          simp [OverrideStore.set, OverrideStore.lookup]
        · have h2 : ¬ k = c' := fun hh => h hh.symm
          simp [OverrideStore.set, OverrideStore.lookup, h, h2]
      · by_cases h : k = c'
        · subst h
          simp [OverrideStore.set, OverrideStore.lookup, hk]
        · simp [OverrideStore.set, OverrideStore.lookup, hk, h, ih]

theorem mem_intRange (lo hi a : ℤ) : a ∈ intRange lo hi ↔ lo ≤ a ∧ a ≤ hi := by
  unfold intRange
  constructor
  · intro h
    obtain ⟨n, hn, he⟩ := List.mem_map.mp h
    rw [List.mem_range] at hn
    omega
  · rintro ⟨h1, h2⟩
    exact List.mem_map.mpr ⟨(a - lo).toNat, List.mem_range.mpr (by omega), by omega⟩

theorem mem_cellRange (bounds : GeoBounds) (c : Coord) :
    c ∈ cellRange bounds ↔
      (latLngToCell bounds.south bounds.east).1 ≤ c.1 ∧
        c.1 ≤ (latLngToCell bounds.north bounds.west).1 ∧
        (latLngToCell bounds.north bounds.west).2 ≤ c.2 ∧
        c.2 ≤ (latLngToCell bounds.south bounds.east).2 := by
  obtain ⟨i, j⟩ := c
  simp only [cellRange, List.mem_flatMap, List.mem_map, mem_intRange, Prod.mk.injEq]
  constructor
  · rintro ⟨b, ⟨h1, h2⟩, jj, ⟨h3, h4⟩, rfl, rfl⟩
    exact ⟨h1, h2, h3, h4⟩
  · rintro ⟨h1, h2, h3, h4⟩
    exact ⟨i, ⟨h1, h2⟩, j, ⟨h3, h4⟩, rfl, rfl⟩

theorem tile_pos : (0 : ℚ) < TILE_DEGREES := by norm_num [TILE_DEGREES]

/-- A coordinate in the viewport's inclusive floor range has a cell rectangle
that still intersects the viewport: flooring the corners can only shrink the
range inward, never past a tile boundary. -/
theorem cellRange_intersects (bounds : GeoBounds) (c : Coord)
    (hc : c ∈ cellRange bounds) :
    boundsIntersect (cellBounds c.1 c.2) bounds = true := by
  rw [mem_cellRange] at hc
  obtain ⟨h1, h2, h3, h4⟩ := hc
  simp only [latLngToCell, WORLD_ORIGIN] at h1 h2 h3 h4
  simp only [boundsIntersect, cellBounds, WORLD_ORIGIN, Bool.and_eq_true,
    decide_eq_true_eq]
  have ht := tile_pos
  refine ⟨⟨⟨?_, ?_⟩, ?_⟩, ?_⟩
  · -- cell south ≤ viewport north:  i * T ≤ north
    have : ((c.1 : ℚ)) ≤ (bounds.north - 0) / TILE_DEGREES :=
      Int.le_floor.mp h2
    have := (le_div_iff₀ ht).mp this
    linarith
  · -- viewport south ≤ cell north:  south ≤ (i + 1) * T
    have hlt : (bounds.south - 0) / TILE_DEGREES < ((c.1 : ℚ) + 1) := by
      calc (bounds.south - 0) / TILE_DEGREES
          < (⌊(bounds.south - 0) / TILE_DEGREES⌋ : ℚ) + 1 := Int.lt_floor_add_one _
        _ ≤ (c.1 : ℚ) + 1 := by
            have : ((⌊(bounds.south - 0) / TILE_DEGREES⌋ : ℤ) : ℚ) ≤ (c.1 : ℚ) := by
              exact_mod_cast h1
            linarith
    have := (div_lt_iff₀ ht).mp hlt
    linarith
  · -- cell west ≤ viewport east:  j * T ≤ east
    have : ((c.2 : ℚ)) ≤ (bounds.east - 0) / TILE_DEGREES :=
      Int.le_floor.mp h4
    have := (le_div_iff₀ ht).mp this
    linarith
  · -- viewport west ≤ cell east:  west ≤ (j + 1) * T
    have hlt : (bounds.west - 0) / TILE_DEGREES < ((c.2 : ℚ) + 1) := by
      calc (bounds.west - 0) / TILE_DEGREES
          < (⌊(bounds.west - 0) / TILE_DEGREES⌋ : ℚ) + 1 := Int.lt_floor_add_one _
        _ ≤ (c.2 : ℚ) + 1 := by
            have : ((⌊(bounds.west - 0) / TILE_DEGREES⌋ : ℤ) : ℚ) ≤ (c.2 : ℚ) := by
              exact_mod_cast h3
            linarith
    have := (div_lt_iff₀ ht).mp hlt
    linarith

/-- Membership in the first pass's spawn list of `updateVisibleCells`. -/
theorem mem_toSpawn (rng : Rng) (ov : OverrideStore) (bounds : GeoBounds)
    (active : List Coord) (c : Coord) :
    c ∈ (updateVisibleCells rng ov bounds active).toSpawn ↔
      c ∈ cellRange bounds ∧ c ∉ active ∧
        (rng ⟨c.1, c.2, LuckTag.cellExists⟩ < CELL_SPAWN_PROBABILITY ∨
          (ov.lookup c).isSome = true) := by
  simp [updateVisibleCells, List.mem_filter, and_assoc]

/-! Claim theorems. -/

/-- C2: resolving a cell returns the stored override verbatim when the
coordinate is present in the Override Store, and otherwise tokenValue 1 when
the spawn draw is below 1/2 and 0 otherwise, computed purely from the RNG
(so a never-overridden cell resolves identically on every call); a draw of
0.3 at (5, 5) resolves to tokenValue 1. -/
theorem C2_resolve_spec (rng : Rng) (ov : OverrideStore) (i j : ℤ) :
    (∀ s, ov.lookup (i, j) = some s → getCellState rng ov i j = s) ∧
    (ov.lookup (i, j) = none →
      getCellState rng ov i j =
        ⟨if rng ⟨i, j, LuckTag.spawn⟩ < 1 / 2 then 1 else 0⟩) ∧
    (rng ⟨5, 5, LuckTag.spawn⟩ = 3 / 10 → ov.lookup (5, 5) = none →
      (getCellState rng ov 5 5).tokenValue = 1) := by
  refine ⟨?_, ?_, ?_⟩
  · intro s hs; simp [getCellState, hs]
  · intro h; simp [getCellState, h]
  · intro hr h
    simp only [getCellState, h, hr]
    norm_num

/-- Witness for C2 at a concrete RNG and store. -/
theorem C2_resolve_spec_witness :
    getCellState (fun _ => 3 / 10) [((1, 2), ⟨7⟩)] 1 2 = ⟨7⟩ ∧
    (getCellState (fun _ => 3 / 10) [] 5 5).tokenValue = 1 := by
  constructor
  · exact (C2_resolve_spec (fun _ => 3 / 10) [((1, 2), ⟨7⟩)] 1 2).1 ⟨7⟩ (by
      simp [OverrideStore.lookup])
  · exact (C2_resolve_spec (fun _ => 3 / 10) [] 5 5).2.2 rfl rfl

/-- C4: the rectangle of cell (i, j) spans origin + i*TILE to
origin + (i+1)*TILE on each axis, and any position inside it maps back to
(i, j) under the floor division of latLngToCell. -/
theorem C4_cell_roundTrip (i j : ℤ) (lat lng : ℚ) :
    (cellBounds i j).south = WORLD_ORIGIN.lat + i * TILE_DEGREES ∧
    (cellBounds i j).north = WORLD_ORIGIN.lat + (i + 1) * TILE_DEGREES ∧
    (cellBounds i j).west = WORLD_ORIGIN.lng + j * TILE_DEGREES ∧
    (cellBounds i j).east = WORLD_ORIGIN.lng + (j + 1) * TILE_DEGREES ∧
    ((cellBounds i j).south ≤ lat → lat < (cellBounds i j).north →
      (cellBounds i j).west ≤ lng → lng < (cellBounds i j).east →
      latLngToCell lat lng = (i, j)) := by
  refine ⟨rfl, rfl, rfl, rfl, ?_⟩
  intro h1 h2 h3 h4
  have ht := tile_pos
  simp only [cellBounds, WORLD_ORIGIN] at h1 h2 h3 h4
  simp only [latLngToCell, WORLD_ORIGIN, Prod.mk.injEq]
  constructor
  · rw [Int.floor_eq_iff]
    constructor
    · rw [le_div_iff₀ ht]; linarith
    · rw [div_lt_iff₀ ht]; linarith
  · rw [Int.floor_eq_iff]
    constructor
    · rw [le_div_iff₀ ht]; linarith
    · rw [div_lt_iff₀ ht]; linarith

/-- Witness for C4: the midpoint of cell (3, -2) maps back to (3, -2). -/
theorem C4_cell_roundTrip_witness : latLngToCell (7 / 20000) (-3 / 20000) = (3, -2) :=
  (C4_cell_roundTrip 3 (-2) (7 / 20000) (-3 / 20000)).2.2.2.2
    (by norm_num [cellBounds, WORLD_ORIGIN, TILE_DEGREES])
    (by norm_num [cellBounds, WORLD_ORIGIN, TILE_DEGREES])
    (by norm_num [cellBounds, WORLD_ORIGIN, TILE_DEGREES])
    (by norm_num [cellBounds, WORLD_ORIGIN, TILE_DEGREES])

/-- C7: when the squared cell distance between player and target exceeds the
squared radius (equivalently, the Euclidean distance exceeds the radius), the
interaction is rejected as tooFar and nothing changes: player state, Override
Store, and the closure token value are all returned verbatim. -/
theorem C7_tooFar_rejected (state : GameState) (ov : OverrideStore) (i j tv : ℤ)
    (h : INTERACTION_RADIUS ^ 2 <
      (((i - (latLngToCell state.playerLatLng.lat state.playerLatLng.lng).1 : ℤ) : ℚ)) ^ 2 +
        (((j - (latLngToCell state.playerLatLng.lat state.playerLatLng.lng).2 : ℤ) : ℚ)) ^ 2) :
    interact state ov i j tv = ⟨state, ov, tv, Outcome.tooFar⟩ := by
  have hn : isNearPlayer state i j = false := by
    unfold isNearPlayer
    simp only [decide_eq_false_iff_not, not_le]
    push_cast at h
    linarith
  unfold interact
  rw [hn]
  simp

/-- Witness for C7: the player at the origin, target cell (1, 2), squared
distance 5 > 4. -/
theorem C7_tooFar_rejected_witness :
    interact initialGameState [] 1 2 5 = ⟨initialGameState, [], 5, Outcome.tooFar⟩ := by
  apply C7_tooFar_rejected
  norm_num [latLngToCell, initialGameState, WORLD_ORIGIN, TILE_DEGREES, INTERACTION_RADIUS]

/-- C8: within the radius, when the target cell resolves to tokenValue 0 the
interaction reports nothing to do and leaves the held token and the Override
Store untouched (in particular when nothing is held). -/
theorem C8_emptyCell_noop (rng : Rng) (state : GameState) (ov : OverrideStore) (i j : ℤ)
    (hnear : isNearPlayer state i j = true)
    (hz : (getCellState rng ov i j).tokenValue = 0) :
    interact state ov i j (getCellState rng ov i j).tokenValue =
      ⟨state, ov, (getCellState rng ov i j).tokenValue, Outcome.nothing⟩ := by
  rw [hz]
  unfold interact
  rw [hnear]
  cases hst : state.heldToken <;> simp [hst]

/-- Witness for C8: empty hands at the origin, procedural roll 0.7 resolves
cell (0, 0) to 0. -/
theorem C8_emptyCell_noop_witness :
    interact initialGameState [] 0 0
        (getCellState (fun _ => 7 / 10) [] 0 0).tokenValue =
      ⟨initialGameState, [], (getCellState (fun _ => 7 / 10) [] 0 0).tokenValue,
        Outcome.nothing⟩ := by
  apply C8_emptyCell_noop
  · norm_num [isNearPlayer, latLngToCell, initialGameState, WORLD_ORIGIN, TILE_DEGREES,
      INTERACTION_RADIUS]
  · norm_num [getCellState, OverrideStore.lookup]

/-- C5: the first pass of updateVisibleCells puts a cell into toSpawn exactly
when it lies in the viewport's inclusive cell range, is not already active,
and either its existence roll is below CELL_SPAWN_PROBABILITY or the Override
Store contains it — so an overridden cell re-entering the viewport respawns
regardless of its roll. -/
theorem C5_reconcile_spawn (rng : Rng) (ov : OverrideStore) (bounds : GeoBounds)
    (active : List Coord) (c : Coord) :
    c ∈ (updateVisibleCells rng ov bounds active).toSpawn ↔
      ((latLngToCell bounds.south bounds.east).1 ≤ c.1 ∧
        c.1 ≤ (latLngToCell bounds.north bounds.west).1 ∧
        (latLngToCell bounds.north bounds.west).2 ≤ c.2 ∧
        c.2 ≤ (latLngToCell bounds.south bounds.east).2) ∧
      c ∉ active ∧
      (rng ⟨c.1, c.2, LuckTag.cellExists⟩ < CELL_SPAWN_PROBABILITY ∨
        (ov.lookup c).isSome = true) := by
  rw [mem_toSpawn, mem_cellRange]

/-- C6: at a fixed viewport, a second reconciliation starting from the active
set produced by the first yields nothing to spawn and nothing to despawn. -/
theorem C6_reconcile_idempotent (rng : Rng) (ov : OverrideStore) (bounds : GeoBounds)
    (active : List Coord) :
    (updateVisibleCells rng ov bounds
        (updateVisibleCells rng ov bounds active).active).toSpawn = [] ∧
    (updateVisibleCells rng ov bounds
        (updateVisibleCells rng ov bounds active).active).toDespawn = [] := by
  set A1 := (updateVisibleCells rng ov bounds active).active with hA1
  have hA1mem : ∀ c ∈ A1, boundsIntersect (cellBounds c.1 c.2) bounds = true := by
    intro c hc
    rw [hA1] at hc
    simp only [updateVisibleCells, List.mem_filter] at hc
    exact hc.2
  have hA1full : ∀ c, c ∈ cellRange bounds →
      (rng ⟨c.1, c.2, LuckTag.cellExists⟩ < CELL_SPAWN_PROBABILITY ∨
        (ov.lookup c).isSome = true) → c ∈ A1 := by
    intro c hc hpred
    rw [hA1]
    simp only [updateVisibleCells, List.mem_filter, List.mem_append]
    refine ⟨?_, cellRange_intersects bounds c hc⟩
    by_cases hac : c ∈ active
    · exact Or.inl hac
    · refine Or.inr ⟨hc, ?_⟩
      simp only [Bool.and_eq_true, Bool.or_eq_true, decide_eq_true_eq]
      exact ⟨hac, hpred⟩
  have hspawn : (updateVisibleCells rng ov bounds A1).toSpawn = [] := by
    have hto : (updateVisibleCells rng ov bounds A1).toSpawn =
        (cellRange bounds).filter (fun c =>
          decide (c ∉ A1) &&
            (decide (rng ⟨c.1, c.2, LuckTag.cellExists⟩ < CELL_SPAWN_PROBABILITY) ||
              (ov.lookup c).isSome)) := rfl
    rw [hto, List.filter_eq_nil_iff]
    intro c hc
    by_cases hcA : c ∈ A1
    · simp [hcA]
    · have hnp : ¬(rng ⟨c.1, c.2, LuckTag.cellExists⟩ < CELL_SPAWN_PROBABILITY ∨
          (ov.lookup c).isSome = true) := fun hp => hcA (hA1full c hc hp)
      push_neg at hnp
      simp [hcA, hnp.1, hnp.2]
  have hdespawn : (updateVisibleCells rng ov bounds A1).toDespawn = [] := by
    have h2 : (updateVisibleCells rng ov bounds A1).toDespawn
        = (A1 ++ (updateVisibleCells rng ov bounds A1).toSpawn).filter
            (fun c => !boundsIntersect (cellBounds c.1 c.2) bounds) := rfl
    rw [h2, hspawn, List.append_nil, List.filter_eq_nil_iff]
    intro c hc
    simp [hA1mem c hc]
  exact ⟨hspawn, hdespawn⟩

/-- A single event never turns an existing override binding for value 0 into
anything else: the only write the system performs is `set key {tokenValue 0}`
in the pickup branch. -/
theorem stepOp_lookup_zero (rng : Rng) (s : Session) (op : Op) (c : Coord)
    (h : s.overrides.lookup c = some ⟨0⟩) :
    (stepOp rng s op).overrides.lookup c = some ⟨0⟩ := by
  cases op with
  | move d1 d2 => simpa [stepOp] using h
  | reconcile b => simpa [stepOp] using h
  | click i j tv =>
      simp only [stepOp]
      unfold interact
      cases hn : isNearPlayer s.game i j with
      | false => simpa using h
      | true =>
          simp only [Bool.true_eq_false, if_false]
          cases hst : s.game.heldToken with
          | none =>
              by_cases htv : 0 < tv
              · simp only [htv, if_true, OverrideStore.lookup_set]
                split <;> simp [h]
              · simpa [htv] using h
          | some hv =>
              by_cases htv : 0 < tv <;> simpa [htv] using h

/-- A single event never removes a key from the Override Store. -/
theorem stepOp_lookup_isSome (rng : Rng) (s : Session) (op : Op) (c : Coord)
    (h : (s.overrides.lookup c).isSome = true) :
    ((stepOp rng s op).overrides.lookup c).isSome = true := by
  cases op with
  | move d1 d2 => simpa [stepOp] using h
  | reconcile b => simpa [stepOp] using h
  | click i j tv =>
      simp only [stepOp]
      unfold interact
      cases hn : isNearPlayer s.game i j with
      | false => simpa using h
      | true =>
          simp only [Bool.true_eq_false, if_false]
          cases hst : s.game.heldToken with
          | none =>
              by_cases htv : 0 < tv
              · simp only [htv, if_true, OverrideStore.lookup_set]
                split <;> simp [h]
              · simpa [htv] using h
          | some hv =>
              by_cases htv : 0 < tv <;> simpa [htv] using h

/-- Event sequences preserve an override binding for value 0. -/
theorem runOps_lookup_zero (rng : Rng) (ops : List Op) (s : Session) (c : Coord)
    (h : s.overrides.lookup c = some ⟨0⟩) :
    (runOps rng ops s).overrides.lookup c = some ⟨0⟩ := by
  induction ops generalizing s with
  | nil => simpa [runOps] using h
  | cons op rest ih =>
      have := stepOp_lookup_zero rng s op c h
      simpa [runOps] using ih (stepOp rng s op) this

/-- Event sequences never remove keys from the Override Store. -/
theorem runOps_lookup_isSome (rng : Rng) (ops : List Op) (s : Session) (c : Coord)
    (h : (s.overrides.lookup c).isSome = true) :
    ((runOps rng ops s).overrides.lookup c).isSome = true := by
  induction ops generalizing s with
  | nil => simpa [runOps] using h
  | cons op rest ih =>
      have := stepOp_lookup_isSome rng s op c h
      simpa [runOps] using ih (stepOp rng s op) this

/-- C3: once (i, j) carries the committed override {tokenValue 0}, every
subsequent event sequence leaves that binding in place, resolution keeps
returning {tokenValue 0} regardless of the procedural roll, and no event
removes any key from the Override Store. -/
theorem C3_override_permanence (rng : Rng) (s : Session) (i j : ℤ) (ops : List Op)
    (h : s.overrides.lookup (i, j) = some ⟨0⟩) :
    (runOps rng ops s).overrides.lookup (i, j) = some ⟨0⟩ ∧
    getCellState rng (runOps rng ops s).overrides i j = ⟨0⟩ ∧
    ∀ c, (s.overrides.lookup c).isSome = true →
      ((runOps rng ops s).overrides.lookup c).isSome = true := by
  have h1 := runOps_lookup_zero rng ops s (i, j) h
  refine ⟨h1, ?_, fun c hc => runOps_lookup_isSome rng ops s c hc⟩
  simp [getCellState, h1]

/-- Witness for C3: cell (1, 2) committed to 0, then a click and a movement. -/
theorem C3_override_permanence_witness :
    (runOps (fun _ => 0) [Op.click 1 2 5, Op.move 1 0]
        ⟨initialGameState, [((1, 2), ⟨0⟩)], []⟩).overrides.lookup (1, 2) = some ⟨0⟩ :=
  (C3_override_permanence (fun _ => 0) ⟨initialGameState, [((1, 2), ⟨0⟩)], []⟩ 1 2
    [Op.click 1 2 5, Op.move 1 0] (by simp [OverrideStore.lookup])).1

/-- The held-token slot is empty or strictly positive. -/
def heldPos (o : Option ℤ) : Prop := o = none ∨ ∃ n, o = some n ∧ 0 < n

/-- One event keeps the held token empty-or-positive: pickup fires only on a
positive closure token, craft adds a positive closure token. -/
theorem stepOp_heldPos (rng : Rng) (s : Session) (op : Op)
    (h : heldPos s.game.heldToken) : heldPos (stepOp rng s op).game.heldToken := by
  cases op with
  | move d1 d2 => simpa [stepOp] using h
  | reconcile b => simpa [stepOp] using h
  | click i j tv =>
      simp only [stepOp]
      unfold interact
      cases hn : isNearPlayer s.game i j with
      | false => simpa using h
      | true =>
          simp only [Bool.true_eq_false, if_false]
          cases hst : s.game.heldToken with
          | none =>
              by_cases htv : 0 < tv
              · exact Or.inr ⟨tv, by simp [htv], htv⟩
              · simp only [htv, if_false]
                exact Or.inl (by simpa using hst)
          | some hv =>
              have hvpos : 0 < hv := by
                rcases h with h0 | ⟨n, hn2, hp⟩
                · rw [hst] at h0; cases h0
                · rw [hst] at hn2
                  injection hn2 with he
                  omega
              by_cases htv : 0 < tv
              · exact Or.inr ⟨hv + tv, by simp [htv], by omega⟩
              · exact Or.inr ⟨hv, by simp [htv, hst], hvpos⟩

/-- One event never empties or decreases a non-empty held token. -/
theorem stepOp_held_mono (rng : Rng) (s : Session) (op : Op) (n : ℤ)
    (h : s.game.heldToken = some n) :
    ∃ m, (stepOp rng s op).game.heldToken = some m ∧ n ≤ m := by
  cases op with
  | move d1 d2 => exact ⟨n, by simpa [stepOp] using h, le_refl n⟩
  | reconcile b => exact ⟨n, by simpa [stepOp] using h, le_refl n⟩
  | click i j tv =>
      simp only [stepOp]
      unfold interact
      cases hn : isNearPlayer s.game i j with
      | false => exact ⟨n, by simpa using h, le_refl n⟩
      | true =>
          simp only [Bool.true_eq_false, if_false]
          rw [h]
          by_cases htv : 0 < tv
          · exact ⟨n + tv, by simp [htv], by omega⟩
          · exact ⟨n, by simpa [htv] using h, le_refl n⟩

/-- Run of events preserves empty-or-positive from the initial empty slot. -/
theorem runOps_heldPos (rng : Rng) (ops : List Op) (s : Session)
    (h : heldPos s.game.heldToken) : heldPos (runOps rng ops s).game.heldToken := by
  induction ops generalizing s with
  | nil => simpa [runOps] using h
  | cons op rest ih =>
      have := stepOp_heldPos rng s op h
      simpa [runOps] using ih (stepOp rng s op) this

/-- C10: every state reachable from the fresh session (empty held slot) has a
held token that is empty or strictly positive, and no single event ever
empties or decreases a non-empty held token. -/
theorem C10_heldToken_invariant (rng : Rng) (ops : List Op) :
    heldPos (runOps rng ops initialSession).game.heldToken ∧
    ∀ (s : Session) (op : Op) (n : ℤ), s.game.heldToken = some n →
      ∃ m, (stepOp rng s op).game.heldToken = some m ∧ n ≤ m := by
  refine ⟨runOps_heldPos rng ops initialSession (Or.inl rfl), ?_⟩
  intro s op n h
  exact stepOp_held_mono rng s op n h

/-- Witness for C10: the fresh session after no events, and one craft click
from a held 3. -/
theorem C10_heldToken_invariant_witness :
    heldPos (runOps (fun _ => 0) [] initialSession).game.heldToken ∧
    ∃ m, (stepOp (fun _ => 0) ⟨⟨some 3, WORLD_ORIGIN⟩, [], []⟩
        (Op.click 0 0 1)).game.heldToken = some m ∧ (3 : ℤ) ≤ m := by
  refine ⟨(C10_heldToken_invariant (fun _ => 0) []).1, ?_⟩
  exact (C10_heldToken_invariant (fun _ => 0) []).2
    ⟨⟨some 3, WORLD_ORIGIN⟩, [], []⟩ (Op.click 0 0 1) 3 rfl

/-- C1 at the failing input (code_bug evidence): holding 7 and crafting on a
near cell with closure token 3 sets heldToken to 10 and fires the win event,
but the Override Store is returned unchanged — the craft branch
(main.ts:518-528) never calls `savedCells.set`, unlike the pickup branch
(main.ts:514). -/
theorem C1_craft_skips_commit :
    interact ⟨some 7, WORLD_ORIGIN⟩ [] 0 0 3 =
      ⟨⟨some 10, WORLD_ORIGIN⟩, [], 0, Outcome.crafted 10 true⟩ := by
  have hn : isNearPlayer ⟨some 7, WORLD_ORIGIN⟩ 0 0 = true := by
    norm_num [isNearPlayer, latLngToCell, WORLD_ORIGIN, TILE_DEGREES, INTERACTION_RADIUS]
  unfold interact
  rw [hn]
  norm_num

/-- C9 at the failing input (code_bug evidence): with no saved payload the
defaults survive, but a payload missing only `savedCells` is partially
applied — `playerLatLng` and `heldToken` are taken from the payload and the
store is cleared before the iteration over the missing field throws
(main.ts:294-299), instead of being rejected wholesale. -/
theorem C9_load_partial_application :
    loadGame none initialGameState [] = ⟨initialGameState, [], false⟩ ∧
    loadGame (some ⟨some ⟨3 / 10000, 4 / 10000⟩, some 5, none⟩)
        initialGameState [((1, 1), ⟨0⟩)] =
      ⟨⟨some 5, ⟨3 / 10000, 4 / 10000⟩⟩, [], true⟩ :=
  ⟨rfl, rfl⟩

end D3rich
